import Mathlib

/-!
Verification of the Active-HDL simulator adapter (`vunit/sim_if/activehdl.py`)
against its natural-language specification.

The Python source is shallowly embedded: pure fragments become Lean
functions, the mutable adapter state (`self._libraries`, `self._coverage_files`)
becomes explicit state passing, subprocess launches become values describing
the launched command, and code that raises becomes `Except`.
-/

namespace ActiveHDL

/-! ## Character and string helpers shared by the embedding -/

/-- Numeric value of a decimal digit run, as `int()` applied to the digits. -/
def digitsToNat (ds : List Char) : Nat :=
  ds.foldl (fun acc c => 10 * acc + (c.toNat - 48)) 0

/-- Count of the (possibly overlapping) occurrences of `pat` in `l`,
modelling how many times a given substring occurs in a generated text. -/
def countOcc (pat l : List Char) : Nat :=
  (List.range (l.length + 1)).countP (fun i => List.isPrefixOf pat (l.drop i))

/-- Strict lexicographic comparison of character lists by code point,
modelling Python string comparison (`<` on `str`). -/
def strLtB : List Char → List Char → Bool
  | [], [] => false
  | [], _ :: _ => true
  | _ :: _, [] => false
  | a :: as, b :: bs =>
    if a.toNat < b.toNat then true
    else if b.toNat < a.toNat then false
    else strLtB as bs

/-- Modelled from the spec: `fix_path` of the shared vsim mixin module is not
under `src/`; the spec does not constrain it beyond producing the path text
inserted into generated scripts.  Modelled after its use there: backslashes
become forward slashes and spaces are escaped with a backslash. -/
def fix_path_chars : List Char → List Char
  | [] => []
  | c :: cs =>
    if c = '\\' then '/' :: fix_path_chars cs
    else if c = ' ' then '\\' :: ' ' :: fix_path_chars cs
    else c :: fix_path_chars cs

/-- String form of `fix_path_chars`. -/
def fix_path (s : String) : String := ⟨fix_path_chars s.data⟩

/-- Tool binary path `str(Path(prefix) / tool)`, POSIX rendering. -/
def binPath (pfx tool : String) : String := pfx ++ "/" ++ tool

/-! ## Version (`class Version`, lines 444-480)

`Version` is a triple; `_compare` selects one of three supplied booleans by
an if/elif chain, `__lt__` and `__eq__` instantiate it, and
`functools.total_ordering` derives `__gt__ a b` as `not (a < b or a == b)`. -/

/-- The simulator version triple, as the Python `Version` class. -/
structure Version where
  major : Nat
  minor : Nat
  minor_letter : String
deriving DecidableEq, Repr

/-- Faithful embedding of `Version._compare(self, other, gt, lt, eq)`. -/
def Version.compare3 (a b : Version) (gt lt eq : Bool) : Bool :=
  if b.major < a.major then gt
  else if a.major < b.major then lt
  else if b.minor < a.minor then gt
  else if a.minor < b.minor then lt
  else if strLtB b.minor_letter.data a.minor_letter.data then gt
  else if strLtB a.minor_letter.data b.minor_letter.data then lt
  else eq

/-- `Version.__lt__`. -/
def Version.ltB (a b : Version) : Bool :=
  Version.compare3 a b false true false

/-- `Version.__eq__`. -/
def Version.eqB (a b : Version) : Bool :=
  Version.compare3 a b false false true

/-- `Version.__gt__`, as synthesized by `functools.total_ordering` from
`__lt__` and `__eq__`: `a > b` iff not (`a < b` or `a == b`). -/
def Version.gtB (a b : Version) : Bool :=
  !(Version.ltB a b || Version.eqB a b)

/-! ## Version consumer (`class VersionConsumer`, lines 483-500)

The regex `(?P<major>\d+)\.(?P<minor>\d+)(?P<minor_letter>[a-zA-Z]?)\.\d+\.\d+`
is embedded as an explicit matcher.  Each quantifier is followed by a literal
that cannot extend it (`\d+` before `\.`, `[a-zA-Z]?` before `\.`), so the
greedy deterministic matcher below has exactly the regex's semantics. -/

/-- Match a nonempty maximal digit run (`\d+`), returning its value and the
rest. -/
def matchDigits (l : List Char) : Option (Nat × List Char) :=
  let ds := l.takeWhile Char.isDigit
  if ds = [] then none else some (digitsToNat ds, l.dropWhile Char.isDigit)

/-- Attempt the version pattern anchored at the head of `l`:
`\d+ . \d+ [a-zA-Z]? . \d+ . \d+`. Returns (major, minor, minor_letter). -/
def matchVersionAt (l : List Char) : Option (Nat × Nat × String) :=
  match matchDigits l with
  | none => none
  | some (ma, r1) =>
    match r1 with
    | '.' :: r2 =>
      match matchDigits r2 with
      | none => none
      | some (mi, r3) =>
        let letterSplit : List Char × List Char :=
          match r3 with
          | c :: rest => if c.isAlpha then ([c], rest) else ([], r3)
          | [] => ([], [])
        match letterSplit.2 with
        | '.' :: r5 =>
          match matchDigits r5 with
          | none => none
          | some (_, r6) =>
            match r6 with
            | '.' :: r7 =>
              match matchDigits r7 with
              | none => none
              | some _ => some (ma, mi, ⟨letterSplit.1⟩)
            | _ => none
        | _ => none
    | _ => none

/-- `re.search`: try the pattern at each start position, leftmost match wins. -/
def searchVersion : List Char → Option (Nat × Nat × String)
  | [] => none
  | c :: rest =>
    match matchVersionAt (c :: rest) with
    | some v => some v
    | none => searchVersion rest

/-- One call of `VersionConsumer.__call__(line)` on consumer state `st`
(the stored `self.version`).  Whenever the search matches, the stored
version is overwritten; the call always returns `True` to the process
runner (keep feeding lines), so feeding continues to end of output. -/
def versionConsumer_call (st : Option Version) (line : String) : Option Version :=
  match searchVersion line.data with
  | some (ma, mi, ml) => some ⟨ma, mi, ml⟩
  | none => st

/-- Feeding a whole output, line by line, to the consumer. -/
def versionConsumer_feed (st : Option Version) (lines : List String) : Option Version :=
  lines.foldl versionConsumer_call st

/-- The version parsed from a single line, if any. -/
def lineVersion (line : String) : Option Version :=
  match searchVersion line.data with
  | some (ma, mi, ml) => some ⟨ma, mi, ml⟩
  | none => none

/-! ## POSIX path model (for `pathlib.Path` as used by the adapter)

A path is an absolute/relative flag plus a component list; `.` components
and empty components are dropped on parsing, as `pathlib` does.  `resolve`
is modelled as: prepend the current working directory when relative, then
eliminate `..` components (the adapter never depends on symlinks). -/

/-- A parsed filesystem path. -/
structure FPath where
  absolute : Bool
  comps : List String
deriving DecidableEq, Repr

/-- Split a character list on `/`. -/
def splitSlash (l : List Char) : List (List Char) :=
  l.foldr
    (fun c acc =>
      match acc with
      | [] => if c = '/' then [[], []] else [[c]]
      | a :: as => if c = '/' then [] :: a :: as else (c :: a) :: as)
    [[]]

/-- Parse a path string as `pathlib.Path` does: record absoluteness, split on
slashes, drop empty and `.` components. -/
def parsePath (s : String) : FPath :=
  { absolute := match s.data with
      | '/' :: _ => true
      | _ => false
    comps := ((splitSlash s.data).filter (fun c => c ≠ [] ∧ c ≠ ['.'])).map
      (fun c => (⟨c⟩ : String)) }

/-- `Path.parent`: drop the last component; the parent of `.` or `/` is
itself, which `dropLast` on the empty list gives for free. -/
def FPath.parentP (p : FPath) : FPath :=
  { absolute := p.absolute, comps := p.comps.dropLast }

/-- `Path.__truediv__` (the `/` operator): an absolute right operand wins,
otherwise components are appended. -/
def FPath.joinP (a b : FPath) : FPath :=
  if b.absolute then b else { absolute := a.absolute, comps := a.comps ++ b.comps }

/-- Eliminate `..` components left to right, each one removing the component
before it. -/
def normComps (l : List String) : List String :=
  l.foldl (fun acc c => if c = ".." then acc.dropLast else acc ++ [c]) []

/-- `Path.resolve()` against working directory `cwd`: make absolute, then
normalize `..` components. -/
def FPath.resolveP (cwd p : FPath) : FPath :=
  let q := if p.absolute then p else cwd.joinP p
  { absolute := q.absolute, comps := normComps q.comps }

/-- Render a path back to text, as `str(Path(...))` (POSIX). -/
def FPath.toStr (p : FPath) : String :=
  if p.comps = [] then (if p.absolute then "/" else ".")
  else (if p.absolute then "/" else "") ++ String.intercalate "/" p.comps

/-! ## Library registry (`_get_mapped_libraries`, lines 197-214)

The line pattern is `([a-zA-Z_]+)\s=\s"(.*)"`, applied with `re.match`
(anchored at the line start, not at its end).  The identifier run is
maximal, `\s` is one whitespace character on each side of `=`, and the
greedy `(.*)` captures up to the last double quote of the line. -/

/-- Identifier characters of the library-map grammar: letters and `_`. -/
def isIdentChar (c : Char) : Bool := c.isAlpha || c = '_'

/-- Capture of the greedy `(.*)"` tail: everything up to the last `"`,
failing when no `"` remains. -/
def upToLastQuote (r : List Char) : Option (List Char) :=
  match (r.reverse).dropWhile (fun c => c ≠ '"') with
  | [] => none
  | _ :: rest => some rest.reverse

/-- `re.match` of `_library_re` against one line, returning the two capture
groups (library name, quoted value). -/
def matchLibraryLine (line : List Char) : Option (String × String) :=
  let name := line.takeWhile isIdentChar
  let rest := line.dropWhile isIdentChar
  if name = [] then none
  else
    match rest with
    | s1 :: '=' :: s2 :: '"' :: r =>
      if s1.isWhitespace && s2.isWhitespace then
        match upToLastQuote r with
        | some v => some ((⟨name⟩ : String), (⟨v⟩ : String))
        | none => none
      else none
    | _ => none

/-- Python-dict insertion into an association list: an existing key is
updated in place, a new key is appended. -/
def dictInsert (m : List (String × FPath)) (k : String) (v : FPath) : List (String × FPath) :=
  if m.any (fun p => p.1 = k) then m.map (fun p => if p.1 = k then (k, v) else p)
  else m ++ [(k, v)]

/-- `_get_mapped_libraries`: scan the lines of the map file; a matching line
`name = "value"` maps `name` to
`(Path(library_cfg).parent / Path(value).parent).resolve()`; other lines are
skipped.  `cwd` is the process working directory used by `resolve()` when
the combined path is relative; `cfgPath` is the map file's own path. -/
def get_mapped_libraries (cwd cfgPath : FPath) (lines : List String) : List (String × FPath) :=
  lines.foldl
    (fun acc line =>
      match matchLibraryLine line.data with
      | none => acc
      | some (k, v) =>
        dictInsert acc k (FPath.resolveP cwd (cfgPath.parentP.joinP (parsePath v).parentP)))
    []

/-- The single map-file line the round-trip claim writes: `name = "path"`. -/
def libraryMapLine (name path : String) : String :=
  name ++ " = \"" ++ path ++ "\""

/-- The value the round-trip claim expects `readMappedLibraries` to return
for the written entry: the written path itself, resolved relative to the
map file's directory to an absolute form.  This definition follows the
spec's words, to be compared with `get_mapped_libraries`. -/
def claimedRoundTripValue (cwd cfgPath : FPath) (path : String) : FPath :=
  FPath.resolveP cwd (cfgPath.parentP.joinP (parsePath path))

/-! ## Library creation (`create_library`, lines 158-185)

The observable effect is the sequence of filesystem/tool actions; they are
reified as a list.  `file_exists` is the filesystem oracle. -/

/-- One observable action of `create_library`. -/
inductive ToolCall where
  | makedirs (path : String)
  | vlib (cmd : List String)
  | vmap (cmd : List String)
deriving DecidableEq, Repr

/-- Whether a call is a `vmap` (library-mapping tool) invocation. -/
def ToolCall.isVmap : ToolCall → Bool
  | .vmap _ => true
  | _ => false

/-- Whether a call is a `vlib` (library-initialization tool) invocation. -/
def ToolCall.isVlib : ToolCall → Bool
  | .vlib _ => true
  | _ => false

/-- `create_library(library_name, path, mapped_libraries)`: create the parent
directory when missing, run `vlib` when the library storage is missing, and
run `vmap` unless `mapped_libraries` already binds the name to exactly this
path (that case returns early, skipping the mapping step). -/
def create_library (pfx : String) (cwd : FPath) (file_exists : String → Bool)
    (library_name path : String) (mapped_libraries : List (String × String)) :
    List ToolCall :=
  let apath := (FPath.resolveP cwd (parsePath path).parentP).toStr
  (if file_exists apath then [] else [ToolCall.makedirs apath])
  ++ (if file_exists path then [] else [ToolCall.vlib [binPath pfx "vlib", library_name, path]])
  ++ (match mapped_libraries.lookup library_name with
      | some p => if p = path then [] else [ToolCall.vmap [binPath pfx "vmap", library_name, path]]
      | none => [ToolCall.vmap [binPath pfx "vmap", library_name, path]])

/-! ## VHDL standards

Modelled from the spec: the `vhdl_standard` module is not under `src/`.
The spec fixes the supported ceiling at VHDL-2008; the standards are the
usual VHDL revisions in chronological order, rendered with their
command-line spelling. -/

/-- The VHDL language standards, in chronological order. -/
inductive VHDLStd where
  | std1993
  | std2002
  | std2008
  | std2019
deriving DecidableEq, Repr

/-- Chronological rank of a standard. -/
def VHDLStd.rank : VHDLStd → Nat
  | .std1993 => 1993
  | .std2002 => 2002
  | .std2008 => 2008
  | .std2019 => 2019

/-- Ordering of standards (`<=` on the Python `VHDLStandard` objects). -/
def VHDLStd.leB (a b : VHDLStd) : Bool := a.rank ≤ b.rank

/-- Textual form, as interpolated by `"-%s" % vhdl_standard`. -/
def VHDLStd.toStr : VHDLStd → String
  | .std1993 => "93"
  | .std2002 => "2002"
  | .std2008 => "2008"
  | .std2019 => "2019"

/-! ## Source file descriptors and adapter state -/

/-- Language kind of a source file (`is_vhdl` / `is_any_verilog`). -/
inductive FileKind where
  | vhdl
  | verilog
  | other
deriving DecidableEq, Repr

/-- A project library: name plus directory. -/
structure Library where
  name : String
  directory : String
deriving DecidableEq, Repr

/-- The immutable per-file data the command builders read. -/
structure SourceFile where
  kind : FileKind
  name : String
  library_name : String
  vcom_flags : List String
  vlog_flags : List String
  include_dirs : List String
  defines : List (String × String)
  vhdl_standard : VHDLStd
deriving DecidableEq, Repr

/-- The adapter fields the command builders read: the toolchain root
(`self._prefix`), the library-map file path (`self._library_cfg`, fixed at
construction) and the mutable known-library list (`self._libraries`). -/
structure AdapterState where
  pfx : String
  library_cfg : String
  libraries : List Library
deriving DecidableEq, Repr

/-- Effect of `setup_library_mapping` on the adapter state: every project
library is appended to the known-library list (the tool calls it also makes
are those of `create_library`, which do not touch this state). -/
def setup_library_mapping_state (st : AdapterState) (projLibs : List Library) : AdapterState :=
  { st with libraries := st.libraries ++ projLibs }

/-- `_std_str(vhdl_standard)`: the command-line flag for a supported standard,
`ValueError` above the VHDL-2008 ceiling. -/
def std_str (std : VHDLStd) : Except String String :=
  if std.leB .std2008 then Except.ok ("-" ++ std.toStr)
  else Except.error ("Invalid VHDL standard " ++ std.toStr)

/-- `compile_vhdl_file_command(source_file)`: fixed head, per-file `vcom`
flags, then standard flag, work library and file name. -/
def compile_vhdl_file_command (st : AdapterState) (sf : SourceFile) :
    Except String (List String) :=
  match std_str sf.vhdl_standard with
  | Except.error e => Except.error e
  | Except.ok stdFlag =>
    Except.ok
      ([binPath st.pfx "vcom", "-quiet", "-j", (parsePath st.library_cfg).parentP.toStr]
        ++ sf.vcom_flags
        ++ [stdFlag, "-work", sf.library_name, sf.name])

/-- `compile_verilog_file_command(source_file)`: fixed head, per-file `vlog`
flags, work library and file name, then one `-l` flag per known library,
include directories and defines. -/
def compile_verilog_file_command (st : AdapterState) (sf : SourceFile) : List String :=
  [binPath st.pfx "vlog", "-quiet", "-lc", st.library_cfg]
    ++ sf.vlog_flags
    ++ ["-work", sf.library_name, sf.name]
    ++ (st.libraries.map (fun l => ["-l", l.name])).flatten
    ++ sf.include_dirs.map (fun d => "+incdir+" ++ d)
    ++ sf.defines.map (fun kv => "+define+" ++ kv.1 ++ "=" ++ kv.2)

/-- `compile_source_file_command(source_file)`: dispatch on the file kind,
`CompileError` for unknown kinds. -/
def compile_source_file_command (st : AdapterState) (sf : SourceFile) :
    Except String (List String) :=
  match sf.kind with
  | .vhdl => compile_vhdl_file_command st sf
  | .verilog => Except.ok (compile_verilog_file_command st sf)
  | .other => Except.error "CompileError"

/-! ## Script generator (`_create_load_function`, `_create_batch_script`)

The test configuration carries its generics as an ordered list, matching
Python's insertion-ordered dict; the `sim_options` the adapter reads become
explicit fields.  Literal braces of the generated TCL are written with the
escapes `\x7b` and `\x7d`. -/

/-- Assertion severity at which the simulator halts. -/
inductive StopLevel where
  | warning
  | error
  | failure
deriving DecidableEq, Repr

/-- The `vhdl_assert_stop_level_mapping` dict: warning=1, error=2, failure=3. -/
def StopLevel.toBreakLevel : StopLevel → Nat
  | .warning => 1
  | .error => 2
  | .failure => 3

/-- One test configuration, with the `sim_options` keys the adapter reads. -/
structure Config where
  generics : List (String × String)
  entity_name : String
  library_name : String
  architecture_name : Option String
  pli : List String
  enable_coverage : Bool
  disable_ieee_warnings : Bool
  vsim_flags : List String
  vsim_flags_gui : List String
  vhdl_assert_stop_level : StopLevel
deriving Repr

/-- `_vsim_extra_args(config)`: the plain flags, replaced wholesale by the
GUI flags when running a GUI session; joined with spaces. -/
def vsim_extra_args (gui : Bool) (config : Config) : String :=
  String.intercalate " " (if gui then config.vsim_flags_gui else config.vsim_flags)

/-- The generic-assignment block of the load function: one
`set vunit_generic_NAME \x7bVALUE\x7d` statement per generic, joined with
newline plus the body indentation. -/
def set_generic_str (config : Config) : String :=
  String.intercalate "\n    "
    (config.generics.map (fun nv => "set vunit_generic_" ++ nv.1 ++ " \x7b" ++ nv.2 ++ "\x7d"))

/-- The generic-binding flags of the `vsim` invocation: one
`-g/ENTITY/NAME=$\x7bvunit_generic_NAME\x7d` per generic, space-joined. -/
def set_generic_name_str (config : Config) : String :=
  String.intercalate " "
    (config.generics.map
      (fun nv => "-g/" ++ config.entity_name ++ "/" ++ nv.1
        ++ "=$\x7bvunit_generic_" ++ nv.1 ++ "\x7d"))

/-- The `-pli` flags, space-joined. -/
def pli_str (config : Config) : String :=
  String.intercalate " "
    (config.pli.map (fun n => "-pli \"" ++ fix_path n ++ "\""))

/-- The `vsim_flags` list assembled by `_create_load_function` before
joining. -/
def load_vsim_flags (gui : Bool) (config : Config) (output_path : String) : List String :=
  [pli_str config, set_generic_name_str config, "-lib", config.library_name, config.entity_name]
    ++ (match config.architecture_name with
        | some a => [a]
        | none => [])
    ++ (if config.enable_coverage then
          ["-acdb_file \x7b" ++ fix_path (output_path ++ "/coverage.acdb") ++ "\x7d"]
        else [])
    ++ [vsim_extra_args gui config]
    ++ (if config.disable_ieee_warnings then ["-ieee_nowarn"] else [])

/-- The coverage file paths `_create_load_function` records into the
adapter's coverage artifact set as its side effect. -/
def load_coverage_files (config : Config) (output_path : String) : List String :=
  if config.enable_coverage then [output_path ++ "/coverage.acdb"] else []

/-- `_create_load_function(config, output_path)`: the generated
`vunit_load` TCL text, with the generic assignments, the guarded `vsim`
invocation and the severity-threshold globals filled into the template. -/
def create_load_function (gui : Bool) (config : Config) (output_path : String) : String :=
  "\nproc vunit_load \x7b\x7d \x7b\n    "
    ++ set_generic_str config
    ++ "\n    set vsim_failed [catch \x7b\n        vsim "
    ++ String.intercalate " " (load_vsim_flags gui config output_path)
    ++ "\n    \x7d]\n    if \x7b$\x7bvsim_failed\x7d\x7d \x7b\n        return true\n    \x7d\n\n    global breakassertlevel\n    set breakassertlevel "
    ++ toString config.vhdl_assert_stop_level.toBreakLevel
    ++ "\n\n    global builtinbreakassertlevel\n    set builtinbreakassertlevel $breakassertlevel\n\n    return false\n\x7d\n"

/-- The lines of `_create_batch_script(common_file_name, load_only)`, in
order; the script text appends each with a trailing newline. -/
def batch_lines (common_file_name : String) (load_only : Bool) : List String :=
  ["source \"" ++ fix_path common_file_name ++ "\"",
   "set failed [vunit_load]",
   "if \x7b$failed\x7d \x7bquit -code 1\x7d"]
    ++ (if load_only then [] else
        ["set failed [vunit_run]",
         "if \x7b$failed\x7d \x7bquit -code 1\x7d"])
    ++ ["quit -code 0"]

/-- `_create_batch_script`: the batch TCL text. -/
def create_batch_script (common_file_name : String) (load_only : Bool) : String :=
  String.join ((batch_lines common_file_name load_only).map (fun l => l ++ "\n"))

/-- Observable outcome of running the batch script under the TCL shell:
final exit code, and whether `vunit_load` / `vunit_run` were invoked. -/
structure BatchTrace where
  code : Nat
  loadInvoked : Bool
  runInvoked : Bool
deriving DecidableEq, Repr

/-- Small-step TCL semantics for the statements the batch script uses:
`set failed [vunit_load]` / `set failed [vunit_run]` invoke the respective
function and store its failure boolean, the `if` guard quits with code 1
when the stored boolean is set, `quit -code 0` ends with code 0, and any
other line (the `source` line) has no observable effect. -/
def execBatchLines (load_failed run_failed : Bool) :
    List String → Bool → Bool → Bool → BatchTrace
  | [], _, loadInv, runInv => { code := 0, loadInvoked := loadInv, runInvoked := runInv }
  | line :: rest, failed, loadInv, runInv =>
    if line = "set failed [vunit_load]" then
      execBatchLines load_failed run_failed rest load_failed true runInv
    else if line = "set failed [vunit_run]" then
      execBatchLines load_failed run_failed rest run_failed loadInv true
    else if line = "if \x7b$failed\x7d \x7bquit -code 1\x7d" then
      if failed then { code := 1, loadInvoked := loadInv, runInvoked := runInv }
      else execBatchLines load_failed run_failed rest failed loadInv runInv
    else if line = "quit -code 0" then
      { code := 0, loadInvoked := loadInv, runInvoked := runInv }
    else execBatchLines load_failed run_failed rest failed loadInv runInv

/-- Run the batch script from its initial state. -/
def runBatchScript (common_file_name : String) (load_only load_failed run_failed : Bool) :
    BatchTrace :=
  execBatchLines load_failed run_failed (batch_lines common_file_name load_only) false false false

/-! ## Coverage merge (`merge_coverage`, lines 313-345)

The merge command is assembled once per chunk; the text is the
concatenation of the rendered chunks, exactly in the order the source
appends them. -/

/-- One chunk of the merge command text. -/
inductive MergeChunk where
  | trap
  | header
  | input (f : String)
  | extra (args : List String)
  | output (f : String)
deriving DecidableEq, Repr

/-- The text each chunk contributes, matching the source's format strings. -/
def MergeChunk.render : MergeChunk → String
  | .trap => "onerror \x7bquit -code 1\x7d\n"
  | .header => "acdb merge"
  | .input f => " -i \x7b" ++ fix_path f ++ "\x7d"
  | .extra args => " " ++ String.intercalate " " (args.map (fun a => "\x7b" ++ a ++ "\x7d"))
  | .output f => " -o \x7b" ++ fix_path f ++ "\x7d" ++ "\n"

/-- Whether a chunk is an input (`-i`) flag. -/
def MergeChunk.isInput : MergeChunk → Bool
  | .input _ => true
  | _ => false

/-- Whether a chunk is the output (`-o`) flag. -/
def MergeChunk.isOutput : MergeChunk → Bool
  | .output _ => true
  | _ => false

/-- The chunks of the merge command: error trap, `acdb merge`, one input
flag per *existing* accumulated coverage file (missing ones are skipped),
the optional caller-supplied extra arguments, and the output flag. -/
def merge_chunks (file_exists : String → Bool) (coverage_files : List String)
    (args : Option (List String)) (file_name : String) : List MergeChunk :=
  [MergeChunk.trap, MergeChunk.header]
    ++ coverage_files.foldl
        (fun acc f => if file_exists f then acc ++ [MergeChunk.input f] else acc) []
    ++ (match args with
        | some a => [MergeChunk.extra a]
        | none => [])
    ++ [MergeChunk.output file_name]

/-- The merge command text. -/
def merge_command (file_exists : String → Bool) (coverage_files : List String)
    (args : Option (List String)) (file_name : String) : String :=
  String.join ((merge_chunks file_exists coverage_files args file_name).map MergeChunk.render)

/-- The missing coverage files `merge_coverage` warns about, in scan order. -/
def merge_warnings (file_exists : String → Bool) (coverage_files : List String) :
    List String :=
  coverage_files.foldl (fun acc f => if file_exists f then acc else acc ++ [f]) []

/-- Everything observable `merge_coverage` does: the script it writes and
the merge-utility process it then launches.  The source does both
unconditionally (no early return and no raise), so the embedding is a total
function producing both. -/
structure MergeResult where
  script_name : String
  script_text : String
  warnings : List String
  vcover_cmd : List String
deriving Repr

/-- `merge_coverage(file_name, args)` over adapter root `pfx`, output path
`output_path` and accumulated coverage files `coverage_files`. -/
def merge_coverage (pfx output_path : String) (file_exists : String → Bool)
    (coverage_files : List String) (file_name : String) (args : Option (List String)) :
    MergeResult :=
  let script_name := output_path ++ "/acdb_merge.tcl"
  { script_name := script_name
    script_text := merge_command file_exists coverage_files args file_name ++ "\n"
    warnings := merge_warnings file_exists coverage_files
    vcover_cmd := [binPath pfx "vsimsa", "-tcl", fix_path script_name] }

/-! ## Spec-side definitions used to state the claims -/

/-- The version order the spec describes: major dominates, then minor, then
the minor-letter compared lexicographically.  Stated from the spec's words,
to be compared with the code-derived `Version.ltB`. -/
def lexVersionLt (a b : Version) : Prop :=
  a.major < b.major
    ∨ (a.major = b.major
        ∧ (a.minor < b.minor
            ∨ (a.minor = b.minor
                ∧ strLtB a.minor_letter.data b.minor_letter.data = true)))

/-- The end-to-end test configuration of the spec's script-generation
property: two generics `WIDTH = "8"` and `DEPTH = "4"` in that order,
coverage disabled, and no other options set. -/
def endToEndConfig : Config :=
  { generics := [("WIDTH", "8"), ("DEPTH", "4")]
    entity_name := "tb"
    library_name := "lib"
    architecture_name := none
    pli := []
    enable_coverage := false
    disable_ieee_warnings := false
    vsim_flags := []
    vsim_flags_gui := []
    vhdl_assert_stop_level := .error }

/-! # Theorems -/

/-! ## Helper lemmas about lexicographic string comparison -/

theorem strLtB_irrefl : ∀ l : List Char, strLtB l l = false
  | [] => rfl
  | a :: as => by
    simp only [strLtB, Nat.lt_irrefl, if_false]
    exact strLtB_irrefl as

theorem strLtB_asymm : ∀ {a b : List Char}, strLtB a b = true → strLtB b a = false
  | [], [], h => by simp [strLtB] at h
  | [], _ :: _, _ => rfl
  | _ :: _, [], h => by simp [strLtB] at h
  | a :: as, b :: bs, h => by
    simp only [strLtB] at h ⊢
    rcases Nat.lt_trichotomy a.toNat b.toNat with hlt | heq | hgt
    · rw [if_neg (by omega : ¬ b.toNat < a.toNat), if_pos hlt]
    · rw [if_neg (by omega : ¬ a.toNat < b.toNat),
        if_neg (by omega : ¬ b.toNat < a.toNat)] at h
      rw [if_neg (by omega : ¬ b.toNat < a.toNat),
        if_neg (by omega : ¬ a.toNat < b.toNat)]
      exact strLtB_asymm h
    · rw [if_neg (by omega : ¬ a.toNat < b.toNat), if_pos hgt] at h
      exact Bool.noConfusion h

theorem eq_of_strLtB_false : ∀ {a b : List Char},
    strLtB a b = false → strLtB b a = false → a = b
  | [], [], _, _ => rfl
  | [], _ :: _, h, _ => by simp [strLtB] at h
  | _ :: _, [], _, h' => by simp [strLtB] at h'
  | a :: as, b :: bs, h, h' => by
    simp only [strLtB] at h h'
    rcases Nat.lt_trichotomy a.toNat b.toNat with hlt | heq | hgt
    · rw [if_pos hlt] at h; exact Bool.noConfusion h
    · rw [if_neg (by omega : ¬ a.toNat < b.toNat),
        if_neg (by omega : ¬ b.toNat < a.toNat)] at h
      rw [if_neg (by omega : ¬ b.toNat < a.toNat),
        if_neg (by omega : ¬ a.toNat < b.toNat)] at h'
      have hv : a.toNat = b.toNat := by omega
      have hc : a = b := Char.ext (UInt32.ext hv)
      rw [hc, eq_of_strLtB_false h h']
    · rw [if_pos hgt] at h'; exact Bool.noConfusion h'

/-! ## C9: version ordering -/

theorem lexVersionLt_asymm : ∀ {a b : Version}, lexVersionLt a b → lexVersionLt b a → False := by
  rintro ⟨ma, mia, la⟩ ⟨mb, mib, lb⟩ h1 h2
  simp only [lexVersionLt] at h1 h2
  rcases h1 with h | ⟨hm, h | ⟨hmi, h⟩⟩ <;>
    rcases h2 with h' | ⟨hm', h' | ⟨hmi', h'⟩⟩ <;> try omega
  rw [strLtB_asymm h] at h'
  exact Bool.noConfusion h'

theorem lexVersionLt_irrefl (a : Version) : ¬ lexVersionLt a a := by
  rintro (h | ⟨_, h | ⟨_, h⟩⟩)
  · omega
  · omega
  · rw [strLtB_irrefl] at h; exact Bool.noConfusion h

theorem lexVersionLt_connex : ∀ {a b : Version},
    ¬ lexVersionLt a b → ¬ lexVersionLt b a → a = b := by
  rintro ⟨ma, mia, la⟩ ⟨mb, mib, lb⟩ h1 h2
  simp only [lexVersionLt, not_or, not_and, not_lt] at h1 h2
  obtain ⟨hle1, hrest1⟩ := h1
  obtain ⟨hle2, hrest2⟩ := h2
  have hm : ma = mb := by omega
  subst hm
  have h3 := hrest1 rfl
  have h4 := hrest2 rfl
  simp only [not_or, not_and, not_lt, Bool.not_eq_true] at h3 h4
  obtain ⟨hle3, hrest3⟩ := h3
  obtain ⟨hle4, hrest4⟩ := h4
  have hmi : mia = mib := by omega
  subst hmi
  have h5 := hrest3 rfl
  have h6 := hrest4 rfl
  have hl : la = lb := String.ext (eq_of_strLtB_false h5 h6)
  rw [hl]

theorem version_ltB_iff (a b : Version) : Version.ltB a b = true ↔ lexVersionLt a b := by
  obtain ⟨ma, mia, la⟩ := a
  obtain ⟨mb, mib, lb⟩ := b
  simp only [Version.ltB, Version.compare3, lexVersionLt]
  rcases Nat.lt_trichotomy ma mb with h | h | h
  · rw [if_neg (by omega : ¬ mb < ma), if_pos h]
    exact iff_of_true rfl (Or.inl h)
  · subst h
    rw [if_neg (Nat.lt_irrefl ma), if_neg (Nat.lt_irrefl ma)]
    rcases Nat.lt_trichotomy mia mib with h2 | h2 | h2
    · rw [if_neg (by omega : ¬ mib < mia), if_pos h2]
      exact iff_of_true rfl (Or.inr ⟨rfl, Or.inl h2⟩)
    · subst h2
      rw [if_neg (Nat.lt_irrefl mia), if_neg (Nat.lt_irrefl mia)]
      cases hba : strLtB lb.data la.data
      · rw [if_neg (by simp [hba])]
        cases hab : strLtB la.data lb.data
        · rw [if_neg (by simp [hab])]
          refine iff_of_false (by simp) ?_
          rintro (hc | ⟨_, hc | ⟨_, hc⟩⟩)
          · omega
          · omega
          · simp [hab] at hc
        · rw [if_pos (by simp [hab])]
          exact iff_of_true rfl (Or.inr ⟨rfl, Or.inr ⟨rfl, rfl⟩⟩)
      · rw [if_pos (by simp [hba])]
        refine iff_of_false (by simp) ?_
        rintro (hc | ⟨_, hc | ⟨_, hc⟩⟩)
        · omega
        · omega
        · simp [strLtB_asymm hc] at hba
    · rw [if_pos h2]
      refine iff_of_false (by simp) ?_
      rintro (hc | ⟨_, hc | ⟨hc, _⟩⟩) <;> omega
  · rw [if_pos h]
    refine iff_of_false (by simp) ?_
    rintro (hc | ⟨hc, _⟩) <;> omega

theorem version_eqB_iff (a b : Version) : Version.eqB a b = true ↔ a = b := by
  obtain ⟨ma, mia, la⟩ := a
  obtain ⟨mb, mib, lb⟩ := b
  simp only [Version.eqB, Version.compare3, Version.mk.injEq]
  rcases Nat.lt_trichotomy ma mb with h | h | h
  · rw [if_neg (by omega : ¬ mb < ma), if_pos h]
    exact iff_of_false (by simp) (fun hc => by omega)
  · subst h
    rw [if_neg (Nat.lt_irrefl ma), if_neg (Nat.lt_irrefl ma)]
    rcases Nat.lt_trichotomy mia mib with h2 | h2 | h2
    · rw [if_neg (by omega : ¬ mib < mia), if_pos h2]
      exact iff_of_false (by simp) (fun hc => by omega)
    · subst h2
      rw [if_neg (Nat.lt_irrefl mia), if_neg (Nat.lt_irrefl mia)]
      cases hba : strLtB lb.data la.data
      · cases hab : strLtB la.data lb.data
        · rw [if_neg (by simp [hba]), if_neg (by simp [hab])]
          exact iff_of_true rfl ⟨rfl, rfl, String.ext (eq_of_strLtB_false hab hba)⟩
        · rw [if_neg (by simp [hba]), if_pos (by simp [hab])]
          refine iff_of_false (by simp) ?_
          rintro ⟨_, _, rfl⟩
          rw [strLtB_irrefl] at hab
          exact Bool.noConfusion hab
      · rw [if_pos (by simp [hba])]
        refine iff_of_false (by simp) ?_
        rintro ⟨_, _, rfl⟩
        rw [strLtB_irrefl] at hba
        exact Bool.noConfusion hba
    · rw [if_pos h2]
      exact iff_of_false (by simp) (fun hc => by omega)
  · rw [if_pos h]
    exact iff_of_false (by simp) (fun hc => by omega)

theorem version_gtB_eq_swap (a b : Version) : Version.gtB a b = Version.ltB b a := by
  unfold Version.gtB
  cases hba : Version.ltB b a
  · have hnba : ¬ lexVersionLt b a := fun hc => by
      simp [(version_ltB_iff b a).mpr hc] at hba
    by_cases hab : lexVersionLt a b
    · rw [(version_ltB_iff a b).mpr hab]
      rfl
    · have heq : a = b := lexVersionLt_connex hab hnba
      rw [(version_eqB_iff a b).mpr heq]
      cases Version.ltB a b <;> rfl
  · have hlex : lexVersionLt b a := (version_ltB_iff b a).mp hba
    have h1 : Version.ltB a b = false := by
      cases h : Version.ltB a b
      · rfl
      · exact absurd ((version_ltB_iff a b).mp h) (fun hc => lexVersionLt_asymm hc hlex)
    have h2 : Version.eqB a b = false := by
      cases h : Version.eqB a b
      · rfl
      · exact absurd hlex (by rw [(version_eqB_iff a b).mp h]; exact lexVersionLt_irrefl b)
    rw [h1, h2]
    rfl

theorem C9_version_order_lexicographic :
    (∀ a b : Version,
      (Version.eqB a b = true ↔ a = b)
        ∧ (Version.ltB a b = true ↔ lexVersionLt a b)
        ∧ Version.gtB a b = Version.ltB b a)
      ∧ Version.gtB ⟨10, 1, ""⟩ ⟨9, 9, "z"⟩ = true
      ∧ Version.gtB ⟨10, 1, "a"⟩ ⟨10, 1, ""⟩ = true
      ∧ Version.eqB ⟨10, 1, ""⟩ ⟨10, 1, ""⟩ = true := by
  refine ⟨fun a b => ⟨version_eqB_iff a b, version_ltB_iff a b, version_gtB_eq_swap a b⟩,
    ?_, ?_, ?_⟩ <;> decide

/-! ## C1: version probe — which matching line wins -/

/-- C1 counterexample: feeding two distinct matching lines, the consumer
ends up with the version of the *second* line, not the first — every
matching line overwrites the stored version (`__call__` has no
first-match guard), so the claim's "first matching line wins" is false. -/
theorem C1_first_match_wins_counterexample :
    versionConsumer_feed none ["vcom 10.1a.123.4567 for Windows", "built on 9.9.1.1"]
        = some ⟨9, 9, ""⟩
      ∧ lineVersion "vcom 10.1a.123.4567 for Windows" = some ⟨10, 1, "a"⟩
      ∧ lineVersion "built on 9.9.1.1" = some ⟨9, 9, ""⟩
      ∧ (⟨9, 9, ""⟩ : Version) ≠ ⟨10, 1, "a"⟩ := by
  refine ⟨?_, ?_, ?_, ?_⟩ <;> decide

/-- C1 amended: the *last* matching line wins.  Appending a matching line
to any fed sequence sets the result to that line's version regardless of
the earlier lines, and appending a non-matching line leaves the result
unchanged; scanning always continues to the end of the output (`__call__`
always returns true). -/
theorem C1_last_match_wins (st : Option Version) (lines : List String) (line : String) :
    (∀ v, lineVersion line = some v → versionConsumer_feed st (lines ++ [line]) = some v)
      ∧ (lineVersion line = none →
          versionConsumer_feed st (lines ++ [line]) = versionConsumer_feed st lines) := by
  have hstep : versionConsumer_feed st (lines ++ [line])
      = versionConsumer_call (versionConsumer_feed st lines) line := by
    simp [versionConsumer_feed, List.foldl_append]
  constructor
  · intro v hv
    rw [hstep]
    unfold versionConsumer_call
    unfold lineVersion at hv
    cases h : searchVersion line.data with
    | none => rw [h] at hv; exact Option.noConfusion hv
    | some t =>
      obtain ⟨ma, mi, ml⟩ := t
      rw [h] at hv
      simpa using hv
  · intro hv
    rw [hstep]
    unfold versionConsumer_call
    unfold lineVersion at hv
    cases h : searchVersion line.data with
    | none => rfl
    | some t =>
      obtain ⟨ma, mi, ml⟩ := t
      rw [h] at hv
      exact Option.noConfusion hv

/-- Witness for `C1_last_match_wins` at concrete inputs. -/
theorem C1_last_match_wins_witness :
    versionConsumer_feed none ["header text", "2.3.4.5"] = some ⟨2, 3, ""⟩
      ∧ versionConsumer_feed none ["2.3.4.5", "no digits"]
          = versionConsumer_feed none ["2.3.4.5"] := by
  constructor
  · exact (C1_last_match_wins none ["header text"] "2.3.4.5").1 ⟨2, 3, ""⟩ (by decide)
  · exact (C1_last_match_wins none ["2.3.4.5"] "no digits").2 (by decide)

/-! ## C2: library-map round trip -/

theorem takeWhile_append_all {p : Char → Bool} :
    ∀ (xs : List Char) {y : Char} (ys : List Char),
      (∀ x ∈ xs, p x = true) → p y = false →
      (xs ++ y :: ys).takeWhile p = xs ∧ (xs ++ y :: ys).dropWhile p = y :: ys
  | [], y, ys, _, hy => by
    simp [List.takeWhile_cons, List.dropWhile_cons, hy]
  | x :: xs, y, ys, hall, hy => by
    have hx : p x = true := hall x (List.mem_cons_self x xs)
    have ih := takeWhile_append_all xs ys (fun z hz => hall z (List.mem_cons_of_mem x hz)) hy
    simp [List.takeWhile_cons, List.dropWhile_cons, hx, ih.1, ih.2]

/-- The library-map matcher recovers a written `name = "value"` entry
whenever the name is a nonempty identifier and the value has no quote. -/
theorem matchLibraryLine_roundtrip (name value : String)
    (hn : name.data ≠ []) (hid : ∀ c ∈ name.data, isIdentChar c = true)
    (hq : '"' ∉ value.data) :
    matchLibraryLine (libraryMapLine name value).data = some (name, value) := by
  obtain ⟨nd⟩ := name
  obtain ⟨vd⟩ := value
  have hline : (libraryMapLine ⟨nd⟩ ⟨vd⟩).data
      = nd ++ ' ' :: '=' :: ' ' :: '"' :: (vd ++ ['"']) := by
    simp [libraryMapLine, String.data_append]
  rw [hline]
  unfold matchLibraryLine
  have hsp : isIdentChar ' ' = false := by decide
  obtain ⟨htake, hdrop⟩ :=
    takeWhile_append_all nd ('=' :: ' ' :: '"' :: (vd ++ ['"'])) hid hsp
  rw [htake, hdrop, if_neg hn]
  have hws : (' ' : Char).isWhitespace = true := by decide
  simp only [hws, Bool.and_self, if_pos]
  have hrev : (vd ++ ['"']).reverse = '"' :: vd.reverse := by
    simp
  have hub : upToLastQuote (vd ++ ['"']) = some vd := by
    unfold upToLastQuote
    rw [hrev]
    simp [List.dropWhile_cons]
  rw [hub]

/-- C2 counterexample: writing the single entry `work = "sub/work.lib"`
into a map file at `/out/library.cfg` and reading it back yields
`/out/sub` — the resolved *parent* of the written path — not the resolved
path `/out/sub/work.lib` the claim describes. -/
theorem C2_roundtrip_counterexample :
    get_mapped_libraries ⟨true, ["cwd"]⟩ (parsePath "/out/library.cfg")
        [libraryMapLine "work" "sub/work.lib"]
      = [("work", ⟨true, ["out", "sub"]⟩)]
      ∧ claimedRoundTripValue ⟨true, ["cwd"]⟩ (parsePath "/out/library.cfg") "sub/work.lib"
          = ⟨true, ["out", "sub", "work.lib"]⟩
      ∧ get_mapped_libraries ⟨true, ["cwd"]⟩ (parsePath "/out/library.cfg")
            [libraryMapLine "work" "sub/work.lib"]
          ≠ [("work", claimedRoundTripValue ⟨true, ["cwd"]⟩ (parsePath "/out/library.cfg")
              "sub/work.lib")] := by
  refine ⟨?_, ?_, ?_⟩ <;> decide

/-- C2 amended: writing the library map with the single entry
`name = "path"` (identifier name, quote-free path) and reading it back
yields the single mapping from `name` to the absolute resolved form of the
*parent directory* of the written path, taken relative to the map file's
directory. -/
theorem C2_roundtrip_maps_to_resolved_parent (cwd cfgPath : FPath) (name path : String)
    (hn : name.data ≠ []) (hid : ∀ c ∈ name.data, isIdentChar c = true)
    (hq : '"' ∉ path.data) :
    get_mapped_libraries cwd cfgPath [libraryMapLine name path]
      = [(name, FPath.resolveP cwd (cfgPath.parentP.joinP (parsePath path).parentP))] := by
  unfold get_mapped_libraries
  simp only [List.foldl_cons, List.foldl_nil]
  rw [matchLibraryLine_roundtrip name path hn hid hq]
  simp [dictInsert]

/-- Witness for `C2_roundtrip_maps_to_resolved_parent` at concrete inputs. -/
theorem C2_roundtrip_maps_to_resolved_parent_witness :
    get_mapped_libraries ⟨true, ["cwd"]⟩ ⟨true, ["out", "library.cfg"]⟩
        [libraryMapLine "work" "sub/work.lib"]
      = [("work", FPath.resolveP ⟨true, ["cwd"]⟩
          ((⟨true, ["out", "library.cfg"]⟩ : FPath).parentP.joinP
            (parsePath "sub/work.lib").parentP))] :=
  C2_roundtrip_maps_to_resolved_parent ⟨true, ["cwd"]⟩ ⟨true, ["out", "library.cfg"]⟩
    "work" "sub/work.lib" (by decide) (by decide) (by decide)

/-! ## C3: purity of compile-command construction -/

/-- C3 counterexample: for a Verilog source file the compile command is
*not* invariant under other adapter operations — running
`setup_library_mapping` (which appends to the shared known-library list)
between two calls changes the returned argument vector, because the
Verilog builder emits one `-l` flag per known library. -/
theorem C3_purity_counterexample :
    compile_source_file_command ⟨"/tool", "out/library.cfg", []⟩
        ⟨FileKind.verilog, "f.v", "lib", [], [], [], [], VHDLStd.std2008⟩
      = Except.ok ["/tool/vlog", "-quiet", "-lc", "out/library.cfg", "-work", "lib", "f.v"]
      ∧ compile_source_file_command
          (setup_library_mapping_state ⟨"/tool", "out/library.cfg", []⟩ [⟨"extlib", "dir"⟩])
          ⟨FileKind.verilog, "f.v", "lib", [], [], [], [], VHDLStd.std2008⟩
        = Except.ok ["/tool/vlog", "-quiet", "-lc", "out/library.cfg", "-work", "lib", "f.v",
            "-l", "extlib"]
      ∧ (["/tool/vlog", "-quiet", "-lc", "out/library.cfg", "-work", "lib", "f.v"] : List String)
          ≠ ["/tool/vlog", "-quiet", "-lc", "out/library.cfg", "-work", "lib", "f.v",
            "-l", "extlib"] :=
  ⟨rfl, rfl, by decide⟩

/-- C3 amended: the VHDL compile command is a pure function of the file
descriptor and the fixed configuration — it does not read the mutable
known-library list, so it is unchanged by any `setup_library_mapping`
executed between two calls; only the Verilog command depends on that
growing list. -/
theorem C3_vhdl_command_pure (st : AdapterState) (projLibs : List Library) (sf : SourceFile) :
    compile_vhdl_file_command (setup_library_mapping_state st projLibs) sf
      = compile_vhdl_file_command st sf := rfl

/-! ## C4: ensureLibrary idempotence -/

/-- C4: when the current mappings already bind the name to exactly the
requested path, `create_library` performs zero `vmap` invocations; with no
current mapping and absent on-disk storage it performs exactly one `vlib`
and exactly one `vmap` invocation. -/
theorem C4_ensure_library_idempotence (pfx : String) (cwd : FPath)
    (file_exists : String → Bool) (name path : String) :
    ((create_library pfx cwd file_exists name path [(name, path)]).countP ToolCall.isVmap = 0)
      ∧ (file_exists path = false →
          (create_library pfx cwd file_exists name path []).countP ToolCall.isVlib = 1
            ∧ (create_library pfx cwd file_exists name path []).countP ToolCall.isVmap = 1) := by
  refine ⟨?_, fun hfe => ?_⟩
  · unfold create_library
    cases h1 : file_exists ((FPath.resolveP cwd (parsePath path).parentP).toStr) <;>
      cases h2 : file_exists path <;>
        simp [h1, h2, List.lookup, List.countP_append, List.countP_cons, List.countP_nil,
          ToolCall.isVmap]
  · unfold create_library
    cases h1 : file_exists ((FPath.resolveP cwd (parsePath path).parentP).toStr) <;>
      simp [h1, hfe, List.lookup, List.countP_append, List.countP_cons, List.countP_nil,
        ToolCall.isVmap, ToolCall.isVlib]

/-- Witness for `C4_ensure_library_idempotence` at concrete inputs. -/
theorem C4_ensure_library_idempotence_witness :
    ((create_library "/tool" ⟨true, ["cwd"]⟩ (fun _ => false) "work" "out/work.lib"
        [("work", "out/work.lib")]).countP ToolCall.isVmap = 0)
      ∧ ((create_library "/tool" ⟨true, ["cwd"]⟩ (fun _ => false) "work" "out/work.lib"
            []).countP ToolCall.isVlib = 1
          ∧ (create_library "/tool" ⟨true, ["cwd"]⟩ (fun _ => false) "work" "out/work.lib"
              []).countP ToolCall.isVmap = 1) :=
  ⟨(C4_ensure_library_idempotence "/tool" ⟨true, ["cwd"]⟩ (fun _ => false)
      "work" "out/work.lib").1,
   (C4_ensure_library_idempotence "/tool" ⟨true, ["cwd"]⟩ (fun _ => false)
      "work" "out/work.lib").2 rfl⟩

/-! ## C5: the VHDL standard flag in the compile command -/

theorem indexOf_append_of_not_mem {a : String} :
    ∀ {l1 : List String} (l2 : List String), a ∉ l1 →
      List.indexOf a (l1 ++ l2) = l1.length + List.indexOf a l2
  | [], l2, _ => by simp
  | b :: l1, l2, h => by
    have hne : b ≠ a := fun hc => h (hc ▸ List.mem_cons_self b l1)
    have h1 : a ∉ l1 := fun hc => h (List.mem_cons_of_mem b hc)
    rw [List.cons_append, List.indexOf_cons,
      show (b == a) = false by simp [hne], Bool.cond_false,
      indexOf_append_of_not_mem l2 h1, List.length_cons]
    omega

/-- C5 counterexample: a source file whose per-file flags themselves
contain the standard flag yields a command with the flag twice, so "exactly
once" fails for that descriptor. -/
theorem C5_std_flag_once_counterexample :
    compile_vhdl_file_command ⟨"/tool", "out/library.cfg", []⟩
        ⟨FileKind.vhdl, "f.vhd", "lib", ["-2008"], [], [], [], VHDLStd.std2008⟩
      = Except.ok ["/tool/vcom", "-quiet", "-j", "out", "-2008", "-2008", "-work", "lib",
          "f.vhd"]
      ∧ (["/tool/vcom", "-quiet", "-j", "out", "-2008", "-2008", "-work", "lib", "f.vhd"] :
          List String).countP (fun a => a == "-2008") = 2 :=
  ⟨rfl, by decide⟩

/-- C5 amended: for a VHDL descriptor at or below the VHDL-2008 ceiling,
provided neither the per-file flags nor the other configured strings equal
the standard flag, the command contains the standard flag exactly once, at
the index right after the fixed head and all per-file flags. -/
theorem C5_std_flag_once_after_flags (st : AdapterState) (sf : SourceFile)
    (hstd : sf.vhdl_standard.leB VHDLStd.std2008 = true)
    (hflags : ("-" ++ sf.vhdl_standard.toStr) ∉ sf.vcom_flags)
    (hothers : ("-" ++ sf.vhdl_standard.toStr) ∉
        [binPath st.pfx "vcom", "-quiet", "-j", (parsePath st.library_cfg).parentP.toStr,
         "-work", sf.library_name, sf.name]) :
    compile_vhdl_file_command st sf
      = Except.ok
          ([binPath st.pfx "vcom", "-quiet", "-j", (parsePath st.library_cfg).parentP.toStr]
            ++ sf.vcom_flags
            ++ ["-" ++ sf.vhdl_standard.toStr, "-work", sf.library_name, sf.name])
      ∧ (([binPath st.pfx "vcom", "-quiet", "-j", (parsePath st.library_cfg).parentP.toStr]
            ++ sf.vcom_flags
            ++ ["-" ++ sf.vhdl_standard.toStr, "-work", sf.library_name, sf.name]).countP
          (fun a => a == "-" ++ sf.vhdl_standard.toStr)) = 1
      ∧ List.indexOf ("-" ++ sf.vhdl_standard.toStr)
          ([binPath st.pfx "vcom", "-quiet", "-j", (parsePath st.library_cfg).parentP.toStr]
            ++ sf.vcom_flags
            ++ ["-" ++ sf.vhdl_standard.toStr, "-work", sf.library_name, sf.name])
          = 4 + sf.vcom_flags.length := by
  simp only [List.mem_cons, List.not_mem_nil, not_or, or_false] at hothers
  obtain ⟨hne1, hne2, hne3, hne4, hne5, hne6, hne7⟩ := hothers
  have hstd' : std_str sf.vhdl_standard = Except.ok ("-" ++ sf.vhdl_standard.toStr) := by
    unfold std_str
    rw [if_pos hstd]
  refine ⟨?_, ?_, ?_⟩
  · unfold compile_vhdl_file_command
    rw [hstd']
  · rw [List.countP_append, List.countP_append]
    have hhead : ([binPath st.pfx "vcom", "-quiet", "-j",
        (parsePath st.library_cfg).parentP.toStr].countP
          (fun a => a == "-" ++ sf.vhdl_standard.toStr)) = 0 := by
      simp [List.countP_cons, List.countP_nil, Ne.symm hne1, Ne.symm hne2, Ne.symm hne3,
        Ne.symm hne4]
    have hmid : (sf.vcom_flags.countP (fun a => a == "-" ++ sf.vhdl_standard.toStr)) = 0 := by
      rw [List.countP_eq_zero]
      intro a ha
      simp only [beq_iff_eq]
      intro hc
      exact hflags (hc ▸ ha)
    have htail : (["-" ++ sf.vhdl_standard.toStr, "-work", sf.library_name, sf.name].countP
        (fun a => a == "-" ++ sf.vhdl_standard.toStr)) = 1 := by
      simp [List.countP_cons, List.countP_nil, Ne.symm hne5, Ne.symm hne6, Ne.symm hne7]
    rw [hhead, hmid, htail]
  · rw [List.append_assoc, indexOf_append_of_not_mem _ (by
      simp only [List.mem_cons, List.not_mem_nil, not_or, or_false]
      exact ⟨hne1, hne2, hne3, hne4⟩),
      indexOf_append_of_not_mem _ hflags, List.indexOf_cons_self]
    simp

/-- Witness for `C5_std_flag_once_after_flags` at concrete inputs. -/
theorem C5_std_flag_once_after_flags_witness :
    compile_vhdl_file_command ⟨"/tool", "out/library.cfg", []⟩
        ⟨FileKind.vhdl, "f.vhd", "lib", ["-dbg"], [], [], [], VHDLStd.std2008⟩
      = Except.ok ["/tool/vcom", "-quiet", "-j", "out", "-dbg", "-2008", "-work", "lib",
          "f.vhd"]
      ∧ (["/tool/vcom", "-quiet", "-j", "out", "-dbg", "-2008", "-work", "lib",
          "f.vhd"] : List String).countP (fun a => a == "-2008") = 1
      ∧ List.indexOf "-2008" ["/tool/vcom", "-quiet", "-j", "out", "-dbg", "-2008", "-work",
          "lib", "f.vhd"] = 5 := by
  have h := C5_std_flag_once_after_flags ⟨"/tool", "out/library.cfg", []⟩
    ⟨FileKind.vhdl, "f.vhd", "lib", ["-dbg"], [], [], [], VHDLStd.std2008⟩
    rfl (by decide) (by decide)
  exact ⟨h.1, h.2.1, h.2.2⟩

/-! ## C6: standards above the ceiling are rejected at construction time -/

/-- C6: for a VHDL source file whose standard is strictly above the
VHDL-2008 ceiling, the command builder returns the configuration error
synchronously and produces no argument vector. -/
theorem C6_std_above_ceiling_error (st : AdapterState) (sf : SourceFile)
    (hk : sf.kind = FileKind.vhdl)
    (hstd : sf.vhdl_standard.leB VHDLStd.std2008 = false) :
    compile_source_file_command st sf
      = Except.error ("Invalid VHDL standard " ++ sf.vhdl_standard.toStr) := by
  unfold compile_source_file_command
  simp only [hk]
  simp [compile_vhdl_file_command, std_str, hstd]

/-- Witness for `C6_std_above_ceiling_error` at concrete inputs. -/
theorem C6_std_above_ceiling_error_witness :
    compile_source_file_command ⟨"/tool", "out/library.cfg", []⟩
        ⟨FileKind.vhdl, "f.vhd", "lib", [], [], [], [], VHDLStd.std2019⟩
      = Except.error "Invalid VHDL standard 2019" :=
  (C6_std_above_ceiling_error ⟨"/tool", "out/library.cfg", []⟩
      ⟨FileKind.vhdl, "f.vhd", "lib", [], [], [], [], VHDLStd.std2019⟩ rfl rfl).trans
    (congrArg Except.error (by decide))

/-! ## C7: end-to-end script generation -/

set_option maxRecDepth 100000 in
/-- C7: on the two-generic, coverage-disabled configuration, the generated
load function contains exactly two generic-assignment statements and one
`vsim` load invocation with exactly two `-g` flags, in the supplied order
(WIDTH before DEPTH, adjacent in the flag list); and whenever the load
function reports failure, the batch script exits with code 1 without ever
invoking `vunit_run` — for either outcome of the run function. -/
theorem C7_end_to_end_script_generation :
    (countOcc "set vunit_generic_".data (create_load_function false endToEndConfig "out").data
        = 2
      ∧ countOcc "vsim ".data (create_load_function false endToEndConfig "out").data = 1
      ∧ countOcc "-g/".data (create_load_function false endToEndConfig "out").data = 2
      ∧ countOcc
          "-g/tb/WIDTH=$\x7bvunit_generic_WIDTH\x7d -g/tb/DEPTH=$\x7bvunit_generic_DEPTH\x7d".data
          (create_load_function false endToEndConfig "out").data = 1
      ∧ countOcc "-acdb_file".data (create_load_function false endToEndConfig "out").data = 0)
      ∧ runBatchScript "common.tcl" false true true
          = { code := 1, loadInvoked := true, runInvoked := false }
      ∧ runBatchScript "common.tcl" false true false
          = { code := 1, loadInvoked := true, runInvoked := false } := by
  refine ⟨⟨?_, ?_, ?_, ?_, ?_⟩, ?_, ?_⟩ <;> decide

/-! ## C8: coverage merge skips missing artifacts -/

/-- C8: merging the artifact set of the two files `A` (existing) and `B`
(missing) produces a command whose input flags are exactly one, naming `A`,
and records exactly one warning, for `B` — in either accumulation order,
and the merge still proceeds to its command. -/
theorem C8_merge_skips_missing (pfx out A B fname : String) (file_exists : String → Bool)
    (hA : file_exists A = true) (hB : file_exists B = false) :
    ((merge_chunks file_exists [A, B] none fname).filter MergeChunk.isInput
        = [MergeChunk.input A]
      ∧ (merge_coverage pfx out file_exists [A, B] fname none).warnings = [B])
      ∧ ((merge_chunks file_exists [B, A] none fname).filter MergeChunk.isInput
          = [MergeChunk.input A]
        ∧ (merge_coverage pfx out file_exists [B, A] fname none).warnings = [B]) := by
  refine ⟨⟨?_, ?_⟩, ?_, ?_⟩ <;>
    simp [merge_chunks, merge_coverage, merge_warnings, hA, hB, List.filter,
      MergeChunk.isInput]

/-- Witness for `C8_merge_skips_missing` at concrete inputs. -/
theorem C8_merge_skips_missing_witness :
    ((merge_chunks (fun f => f == "cov/A.acdb") ["cov/A.acdb", "cov/B.acdb"] none
        "merged.acdb").filter MergeChunk.isInput = [MergeChunk.input "cov/A.acdb"]
      ∧ (merge_coverage "/tool" "out" (fun f => f == "cov/A.acdb")
          ["cov/A.acdb", "cov/B.acdb"] "merged.acdb" none).warnings = ["cov/B.acdb"])
      ∧ ((merge_chunks (fun f => f == "cov/A.acdb") ["cov/B.acdb", "cov/A.acdb"] none
          "merged.acdb").filter MergeChunk.isInput = [MergeChunk.input "cov/A.acdb"]
        ∧ (merge_coverage "/tool" "out" (fun f => f == "cov/A.acdb")
            ["cov/B.acdb", "cov/A.acdb"] "merged.acdb" none).warnings = ["cov/B.acdb"]) :=
  C8_merge_skips_missing "/tool" "out" "cov/A.acdb" "cov/B.acdb" "merged.acdb"
    (fun f => f == "cov/A.acdb") (by decide) (by decide)

/-! ## C10: merging an empty artifact set still writes and runs -/

/-- C10: with no accumulated coverage artifacts, `merge_coverage` still
produces the merge script — the error-trap line, the merge command with
zero input flags and exactly one output flag naming the requested merged
artifact — and still launches the merge utility on that script; nothing is
skipped and no error is raised (the embedding is a total function whose
process command is always produced). -/
theorem C10_empty_merge_still_runs (pfx out fname : String) (file_exists : String → Bool) :
    merge_chunks file_exists [] none fname
        = [MergeChunk.trap, MergeChunk.header, MergeChunk.output fname]
      ∧ (merge_chunks file_exists [] none fname).countP MergeChunk.isInput = 0
      ∧ (merge_chunks file_exists [] none fname).countP MergeChunk.isOutput = 1
      ∧ (merge_coverage pfx out file_exists [] fname none).script_text
          = "onerror \x7bquit -code 1\x7d\n" ++ "acdb merge"
            ++ (" -o \x7b" ++ fix_path fname ++ "\x7d" ++ "\n") ++ "\n"
      ∧ (merge_coverage pfx out file_exists [] fname none).vcover_cmd
          = [binPath pfx "vsimsa", "-tcl", fix_path (out ++ "/acdb_merge.tcl")]
      ∧ (merge_coverage pfx out file_exists [] fname none).warnings = [] := by
  refine ⟨rfl, rfl, rfl, ?_, rfl, rfl⟩
  have h0 : (("" : String) ++ "onerror \x7bquit -code 1\x7d\n")
      = "onerror \x7bquit -code 1\x7d\n" := by decide
  show String.join ([MergeChunk.trap, MergeChunk.header,
      MergeChunk.output fname].map MergeChunk.render) ++ "\n" = _
  simp only [List.map_cons, List.map_nil, String.join, List.foldl_cons, List.foldl_nil,
    MergeChunk.render]
  rw [h0]

end ActiveHDL
